import Mathlib

/-!
Verification of the log-interpretation core of the AOI uploader
(src/src/panel.rs, function parse_xml).

The XML library (roxmltree) is modelled at its interface by a shallow
tree type: an element node carries its tag name, its text content
(the text() accessor, defaulting to the empty string) and its child
nodes; every non-element node (text, comment) is collapsed into a
single constructor, since parse_xml only ever asks non-element
children whether they are elements or whether they carry a given tag
(both answers are negative for them).

The date library (chrono) is modelled at its interface as well:
NaiveDateTime keeps the six calendar fields, parse_from_str with the
fixed format string used by the source accepts exactly "YYYYMMDD HHMMSS"
with in-range fields, and the Default value is the epoch
1970-01-01 00:00:00 (year 1970).
-/

/-- Shallow model of a roxmltree node: an element with tag name, text
content and children, or any non-element node. -/
inductive Node where
  | elem (tag : String) (txt : String) (children : List Node) : Node
  | other : Node

/-- Rust: node.is_element(). -/
def Node.isElement : Node → Bool
  | .elem _ _ _ => true
  | .other => false

/-- Rust: node.has_tag_name(t); false for non-element nodes. -/
def Node.hasTag (n : Node) (t : String) : Bool :=
  match n with
  | .elem tag _ _ => tag == t
  | .other => false

/-- Rust: node.text().unwrap_or_default(). -/
def Node.txt : Node → String
  | .elem _ s _ => s
  | .other => ""

/-- Rust: node.children(). -/
def Node.childs : Node → List Node
  | .elem _ _ cs => cs
  | .other => []

/-- Rust: node.children().find(|f| f.has_tag_name(t)). -/
def findChild (n : Node) (t : String) : Option Node :=
  n.childs.find? (fun c => c.hasTag t)

/-- Model of chrono::NaiveDateTime at the interface used by panel.rs:
only the calendar fields, of which parse_xml consults the year. -/
structure NaiveDT where
  year : Int
  month : Nat
  day : Nat
  hour : Nat
  minute : Nat
  second : Nat
deriving DecidableEq, Repr

/-- chrono NaiveDateTime::default(): the epoch 1970-01-01 00:00:00. -/
def NaiveDT.default : NaiveDT :=
  { year := 1970, month := 1, day := 1, hour := 0, minute := 0, second := 0 }

def digitVal (c : Char) : Nat := c.toNat - 48

def digitsToNat (l : List Char) : Nat :=
  l.foldl (fun a c => a * 10 + digitVal c) 0

/-- Model of chrono NaiveDateTime::parse_from_str with the fixed format
string of panel.rs ("%Y%m%d %H%M%S"): eight digits, a space, six
digits, with the calendar fields in range (day validation coarsened to
1..=31; panel.rs only ever consults the year of the result). -/
def parseDateTime (s : String) : Option NaiveDT :=
  match s.toList with
  | [y1, y2, y3, y4, m1, m2, d1, d2, sp, h1, h2, n1, n2, s1, s2] =>
    if sp = ' ' ∧ ([y1, y2, y3, y4, m1, m2, d1, d2, h1, h2, n1, n2, s1, s2].all Char.isDigit) then
      let year := digitsToNat [y1, y2, y3, y4]
      let month := digitsToNat [m1, m2]
      let day := digitsToNat [d1, d2]
      let hour := digitsToNat [h1, h2]
      let minute := digitsToNat [n1, n2]
      let second := digitsToNat [s1, s2]
      if 1 ≤ month ∧ month ≤ 12 ∧ 1 ≤ day ∧ day ≤ 31 ∧ hour ≤ 23 ∧ minute ≤ 59 ∧ second ≤ 59 then
        some { year := (year : Int), month := month, day := day,
               hour := hour, minute := minute, second := second }
      else none
    else none
  | _ => none

/-- Model of Rust str::parse::<usize>: an optional leading plus sign,
then one or more ASCII digits, and the value must fit in 64 bits. -/
def parseUsize (s : String) : Option Nat :=
  let cs := match s.toList with
    | '+' :: rest => rest
    | l => l
  if cs.isEmpty then none
  else if cs.all Char.isDigit then
    let v := digitsToNat cs
    if v < 18446744073709551616 then some v else none
  else none

/-- panel.rs Board (struct Board, lines 29-36). -/
structure Board where
  Serial_NMBR : String
  Board_NMBR : Nat
  Result : String
  Failed : List String
  Pseudo : List String
deriving DecidableEq, Repr

/-- Board::default(). -/
def Board.default : Board :=
  { Serial_NMBR := "", Board_NMBR := 0, Result := "", Failed := [], Pseudo := [] }

/-- panel.rs Panel (struct Panel, lines 18-27). -/
structure Panel where
  Program : String
  Station : String
  Operator : String
  Repair_DT : NaiveDT
  Inspection_DT : NaiveDT
  Boards : List Board
deriving DecidableEq, Repr

/-- Panel::default(). -/
def Panel.default : Panel :=
  { Program := "", Station := "", Operator := "", Repair_DT := NaiveDT.default,
    Inspection_DT := NaiveDT.default, Boards := [] }

/-- The nested Date/End (or Time/End) text extraction of panel.rs
(lines 72-91 and 112-131). -/
def nestedEnd (sub : Node) (t : String) : String :=
  match findChild sub t with
  | some x =>
    match findChild x "End" with
    | some y => y.txt
    | none => ""
  | none => ""

/-- Lines 93-99 / 133-139: when both the date and the time string are
non-empty, parse them together and fall back to the default timestamp
on parse failure; otherwise leave the stored timestamp unchanged. -/
def extractDT (sub : Node) (old : NaiveDT) : NaiveDT :=
  let date := nestedEnd sub "Date"
  let time := nestedEnd sub "Time"
  if !date.isEmpty && !time.isEmpty then
    (parseDateTime (date ++ " " ++ time)).getD NaiveDT.default
  else old

/-- One step of the GlobalInformation loop (lines 54-143): the state is
the partial Panel together with the repaired flag. -/
def globalStep (st : Panel × Bool) (sub : Node) : Panel × Bool :=
  if sub.hasTag "Program" then
    match findChild sub "InspectionPlanName" with
    | some x => ({ st.1 with Program := x.txt }, st.2)
    | none => st
  else if sub.hasTag "Inspection" then
    ({ st.1 with Inspection_DT := extractDT sub st.1.Inspection_DT }, st.2)
  else if sub.hasTag "Repair" then
    let p := match findChild sub "OperatorName" with
      | some x => { st.1 with Operator := x.txt.toUpper }
      | none => st.1
    ({ p with Repair_DT := extractDT sub p.Repair_DT }, true)
  else st

/-- Lines 50-147: interpret the GlobalInformation section, failing when
it is absent; returns the partial Panel and the repaired flag. -/
def parseGlobal (ginfo? : Option Node) : Except String (Panel × Bool) :=
  match ginfo? with
  | some ginfo =>
    .ok ((ginfo.childs.filter Node.isElement).foldl globalStep (Panel.default, false))
  | none => .error "Could not find <GlobalInformation>!"

/-- Lines 170-180: extract the Barcode and Result texts of one
SinglePCB child (later occurrences overwrite earlier ones). -/
def extractPCB (child : Node) : String × String :=
  (child.childs.filter Node.isElement).foldl
    (fun pr sub =>
      if sub.hasTag "Barcode" then (sub.txt, pr.2)
      else if sub.hasTag "Result" then (pr.1, sub.txt)
      else pr)
    ("", "")

/-- Lines 187-188: the two field assignments into the pre-sized slot. -/
def updSerial (b : Board) (sr : String × String) : Board :=
  { b with Serial_NMBR := sr.1, Result := sr.2 }

/-- Lines 166-193: one step of the SinglePCB loop; the state is the
Panel with the document-level failed flag.  The indexed write
Boards[i] is modelled by List.set at the read-back board; the index is
always in bounds (see the safety theorem for C10). -/
def pcbStep (st : Panel × Bool) (ib : Nat × Node) : Except String (Panel × Bool) :=
  if !(extractPCB ib.2).1.isEmpty && !(extractPCB ib.2).2.isEmpty then
    .ok ({ st.1 with Boards := st.1.Boards.set ib.1 (updSerial (st.1.Boards.getD ib.1 Board.default) (extractPCB ib.2)) },
         if (extractPCB ib.2).2 != "PASS" then true else st.2)
  else .error "SinglePCB sub-fields missing!"

/-- Lines 157-194: interpret the PCBInformation section when present:
pre-size the board vector to the number of element children, then fill
slot i from the i-th SinglePCB child. -/
def parsePCB (pcb? : Option Node) (p : Panel) : Except String (Panel × Bool) :=
  match pcb? with
  | some pcbInfo =>
    let count := (pcbInfo.childs.filter Node.isElement).length
    let p0 := { p with Boards := List.replicate count Board.default }
    (pcbInfo.childs.filter (fun c => c.hasTag "SinglePCB")).enum.foldlM pcbStep (p0, false)
  | none => .ok (p, false)

/-- Lines 196-201: every board slot must carry a non-empty serial and
result. -/
def checkBoards (p : Panel) : Except String Unit :=
  if p.Boards.any (fun b => b.Serial_NMBR.isEmpty || b.Result.isEmpty) then
    .error "Board serial or result is missing!"
  else .ok ()

/-- Lines 242-245 / 306-309: truncate a WinID at its last dash.
truncDash returns the part before the last dash of the character list,
or none when no dash occurs. -/
def truncDash : List Char → Option (List Char)
  | [] => none
  | c :: rest =>
    match truncDash rest with
    | some pre => some (c :: pre)
    | none => if c = '-' then some [] else none

/-- Rust WinID.rfind a dash, then split_at and keep the left part;
unchanged when no dash occurs. -/
def truncWinID (s : String) : String :=
  match truncDash s.toList with
  | some pre => String.mk pre
  | none => s

/-- Lines 214-232: extract WinID, PCBNumber and the ErrorDescription
text nested under Result from one repair window child. -/
def extractRepairWindow (window : Node) : String × String × String :=
  (window.childs.filter Node.isElement).foldl
    (fun tr sub =>
      if sub.hasTag "WinID" then (sub.txt, tr.2.1, tr.2.2)
      else if sub.hasTag "PCBNumber" then (tr.1, sub.txt, tr.2.2)
      else if sub.hasTag "Result" then
        match findChild sub "ErrorDescription" with
        | some t => (tr.1, tr.2.1, t.txt)
        | none => tr
      else tr)
    ("", "", "")

/-- Push an identifier onto the Failed list unless already present
(lines 248-250 / 311-313). -/
def pushFailed (b : Board) (wid : String) : Board :=
  if !b.Failed.contains wid then { b with Failed := b.Failed ++ [wid] } else b

/-- Push an identifier onto the Pseudo list unless already present
(lines 251-253). -/
def pushPseudo (b : Board) (wid : String) : Board :=
  if !b.Pseudo.contains wid then { b with Pseudo := b.Pseudo ++ [wid] } else b

/-- Lines 247-253: classify the truncated identifier as a genuine or
pseudo defect of the board. -/
def classifyWindow (b : Board) (res wid : String) : Board :=
  if res != "Pszeudohiba" then pushFailed b wid else pushPseudo b wid

/-- Lines 209-264: one step of the repair window loop: the PCBNumber is
a zero-based index into the board sequence; an index without a board
slot changes nothing; an unparsable PCBNumber fails the parse. -/
def repairWindowStep (p : Panel) (window : Node) : Except String Panel :=
  if !((extractRepairWindow window).1.isEmpty || (extractRepairWindow window).2.1.isEmpty
      || (extractRepairWindow window).2.2.isEmpty) then
    match parseUsize (extractRepairWindow window).2.1 with
    | some x =>
      match p.Boards.get? x with
      | some board =>
        .ok { p with Boards := p.Boards.set x (classifyWindow board (extractRepairWindow window).2.2 (truncWinID (extractRepairWindow window).1)) }
      | none => .ok p
    | none => .error ("Could not parse PCBNumber: " ++ (extractRepairWindow window).2.1)
  else
    .error ("Window interpreting error! WinID: " ++ (extractRepairWindow window).1
      ++ ", PCBNumber: " ++ (extractRepairWindow window).2.1
      ++ ", Result: " ++ (extractRepairWindow window).2.2)

/-- Lines 205-265: the repair branch scans ComponentInformation when
present. -/
def parseRepairWindows (ci? : Option Node) (p : Panel) : Except String Panel :=
  match ci? with
  | some compInfo => (compInfo.childs.filter Node.isElement).foldlM repairWindowStep p
  | none => .ok p

/-- Lines 277-293: extract WinID, PCBNumber and the Result text nested
under Analysis from one AOI/AXI window child. -/
def extractAOIWindow (window : Node) : String × String × String :=
  (window.childs.filter Node.isElement).foldl
    (fun tr sub =>
      if sub.hasTag "WinID" then (sub.txt, tr.2.1, tr.2.2)
      else if sub.hasTag "PCBNumber" then (tr.1, sub.txt, tr.2.2)
      else if sub.hasTag "Analysis" then
        match findChild sub "Result" with
        | some t => (tr.1, tr.2.1, t.txt)
        | none => tr
      else tr)
    ("", "", "")

/-- Lines 272-327: one step of the AOI/AXI window loop: a result code
of "0" skips the window; the PCBNumber is one-based, zero and
out-of-range values fail the parse. -/
def aoiWindowStep (p : Panel) (window : Node) : Except String Panel :=
  if !((extractAOIWindow window).1.isEmpty || (extractAOIWindow window).2.1.isEmpty
      || (extractAOIWindow window).2.2.isEmpty) then
    if (extractAOIWindow window).2.2 != "0" then
      match parseUsize (extractAOIWindow window).2.1 with
      | some x =>
        if x == 0 then .error "BoardNumber is 0. Was excepting 1+"
        else
          match p.Boards.get? (x - 1) with
          | some board =>
            .ok { p with Boards := p.Boards.set (x - 1) (pushFailed board (truncWinID (extractAOIWindow window).1)) }
          | none => .error ("Could not find board number " ++ toString x)
      | none => .error ("Could not parse PCBNumber: " ++ (extractAOIWindow window).2.1)
    else .ok p
  else
    .error ("Window interpreting error! WinID: " ++ (extractAOIWindow window).1
      ++ ", PCBNumber: " ++ (extractAOIWindow window).2.1
      ++ ", Result: " ++ (extractAOIWindow window).2.2)

/-- Lines 266-329: the AOI/AXI branch scans ComponentInformation when
present. -/
def parseAOIWindows (ci? : Option Node) (p : Panel) : Except String Panel :=
  match ci? with
  | some compInfo => (compInfo.childs.filter Node.isElement).foldlM aoiWindowStep p
  | none => .ok p

/-- Lexicographic comparison of character lists by code point; Rust
String::cmp compares UTF-8 bytes, whose order coincides with code-point
order. -/
def lexLE : List Char → List Char → Bool
  | [], _ => true
  | _ :: _, [] => false
  | a :: as, b :: bs =>
    if a.toNat < b.toNat then true
    else if b.toNat < a.toNat then false
    else lexLE as bs

/-- Board comparison used by the final sort (line 333): by serial. -/
def boardLE (a b : Board) : Prop := lexLE a.Serial_NMBR.data b.Serial_NMBR.data = true

instance : DecidableRel boardLE := fun a b =>
  inferInstanceAs (Decidable (lexLE a.Serial_NMBR.data b.Serial_NMBR.data = true))

/-- Lines 335-337: re-assign Board_NMBR as 1-based position after the
sort. -/
def renumber (l : List Board) : List Board :=
  l.enum.map (fun pr => { pr.2 with Board_NMBR := pr.1 + 1 })

/-- Lines 331-344: sort the boards by serial, renumber them, and derive
the station name from the caller-supplied line name.  Rust
slice::sort_by is a stable sort with respect to the supplied
comparator; it is modelled by a stable insertion sort. -/
def finalize (repaired : Bool) (line : String) (p : Panel) : Panel :=
  { p with
    Boards := renumber (p.Boards.insertionSort boardLE),
    Station := if repaired then line ++ "_HARAN" else line ++ "_AOI_AXI" }

/-- The body of parse_xml over the three section lookups; the source
looks each section up from the root's children exactly once, with pure
first-match semantics, so the lookups are hoisted into arguments. -/
def parseDoc (g? pcb? ci? : Option Node) (line : String) : Except String Panel :=
  match parseGlobal g? with
  | .error e => .error e
  | .ok (p0, repaired) =>
    if p0.Program.isEmpty || decide (p0.Inspection_DT.year < 2000)
        || (repaired && decide (p0.Repair_DT.year < 2000)) then
      .error "Missing mandatory <GlobalInformation> elements!"
    else
      match parsePCB pcb? p0 with
      | .error e => .error e
      | .ok (p1, failed) =>
        match checkBoards p1 with
        | .error e => .error e
        | .ok _ =>
          match (if repaired then parseRepairWindows ci? p1
                 else if failed then parseAOIWindows ci? p1
                 else .ok p1) with
          | .error e => .error e
          | .ok p2 => .ok (finalize repaired line p2)

/-- panel.rs parse_xml (lines 38-349), over an already-parsed document
tree (the std::fs::read_to_string and roxmltree::Document::parse
prologue is the XML library boundary). -/
def parse_xml (root : Node) (line : String) : Except String Panel :=
  parseDoc (findChild root "GlobalInformation") (findChild root "PCBInformation")
    (findChild root "ComponentInformation") line

/-- A document is a repair document exactly when its GlobalInformation
section has an element child tagged Repair (line 101-102). -/
def hasRepair (g? : Option Node) : Bool :=
  match g? with
  | some g => (g.childs.filter Node.isElement).any (fun c => c.hasTag "Repair")
  | none => false

/-- Every SinglePCB child of the PCBInformation section carries the
result text PASS (the failed flag of lines 184-186 stays unset). -/
def allPass (pcb? : Option Node) : Bool :=
  match pcb? with
  | some pcbInfo =>
    (pcbInfo.childs.filter (fun c => c.hasTag "SinglePCB")).all (fun c => (extractPCB c).2 == "PASS")
  | none => true

/-- Extract the Panel of a successful parse (evaluation helper for the
concrete documents below). -/
def okPanel (e : Except String Panel) : Panel :=
  match e with
  | .ok p => p
  | .error _ => Panel.default

/-- Extract the state of a successful GlobalInformation interpretation
(evaluation helper for the concrete documents below). -/
def okPG (e : Except String (Panel × Bool)) : Panel × Bool :=
  match e with
  | .ok pr => pr
  | .error _ => (Panel.default, false)

/-! ### Concrete documents used as test vectors -/

def gInfoN (cs : List Node) : Node := .elem "GlobalInformation" "" cs

def programN (s : String) : Node := .elem "Program" "" [.elem "InspectionPlanName" s []]

def dateTimeN (d t : String) : List Node :=
  [.elem "Date" "" [.elem "End" d []], .elem "Time" "" [.elem "End" t []]]

def inspectionN : Node := .elem "Inspection" "" (dateTimeN "20240101" "120000")

def repairN : Node := .elem "Repair" "" ([.elem "OperatorName" "op" []] ++ dateTimeN "20240102" "130000")

def singlePCBN (s r : String) : Node :=
  .elem "SinglePCB" "" [.elem "Barcode" s [], .elem "Result" r []]

/-- An AOI/AXI window child with the result code nested under Analysis. -/
def windowAOI (wid pn res : String) : Node :=
  .elem "Win" "" [.elem "WinID" wid [], .elem "PCBNumber" pn [],
    .elem "Analysis" "" [.elem "Result" res []]]

/-- A repair window child with the result code nested under Result. -/
def windowRep (wid pn res : String) : Node :=
  .elem "Win" "" [.elem "WinID" wid [], .elem "PCBNumber" pn [],
    .elem "Result" "" [.elem "ErrorDescription" res []]]

/-- A repair document with a valid program and repair timestamp but no
Inspection section at all. -/
def c1doc : Node := .elem "Root" "" [gInfoN [programN "P1", repairN]]

/-- An AOI document whose two boards carry the same serial. -/
def c2doc : Node := .elem "Root" "" [gInfoN [programN "P1", inspectionN],
  .elem "PCBInformation" "" [singlePCBN "A" "PASS", singlePCBN "A" "PASS"]]

/-- A PCBInformation section declaring two element children of which
only one is a SinglePCB: slot 1 stays an empty default board. -/
def c3doc : Node := .elem "Root" "" [gInfoN [programN "P1", inspectionN],
  .elem "PCBInformation" "" [singlePCBN "A" "PASS", .elem "Dummy" "" []]]

/-- A passing two-board AOI document (serials arrive out of order). -/
def c4doc : Node := .elem "Root" "" [gInfoN [programN "P1", inspectionN],
  .elem "PCBInformation" "" [singlePCBN "B" "PASS", singlePCBN "A" "PASS"]]

/-- An all-PASS AOI document without a ComponentInformation section. -/
def c5doc1 : Node := .elem "Root" "" [gInfoN [programN "P1", inspectionN],
  .elem "PCBInformation" "" [singlePCBN "A" "PASS"]]

/-- The same document with a ComponentInformation section holding a
window whose mandatory fields are all missing. -/
def c5doc2 : Node := .elem "Root" "" [gInfoN [programN "P1", inspectionN],
  .elem "PCBInformation" "" [singlePCBN "A" "PASS"],
  .elem "ComponentInformation" "" [.elem "Win" "" []]]

def aoiFailChildren : List Node := [gInfoN [programN "P1", inspectionN],
  .elem "PCBInformation" "" [singlePCBN "A" "FAIL"]]

/-- A failed AOI document whose window names board number 0. -/
def c6doc0 : Node :=
  .elem "Root" "" (aoiFailChildren ++ [.elem "ComponentInformation" "" [windowAOI "U5-2" "0" "3"]])

/-- A failed AOI document whose window names the non-existent board 9. -/
def c6doc9 : Node :=
  .elem "Root" "" (aoiFailChildren ++ [.elem "ComponentInformation" "" [windowAOI "U5-2" "9" "3"]])

def repairChildren : List Node := [gInfoN [programN "P1", inspectionN, repairN],
  .elem "PCBInformation" "" [singlePCBN "A" "FAIL"]]

/-- A repair document with a window at zero-based index 0 and a second
window naming the non-existent index 5. -/
def c7docOOR : Node := .elem "Root" "" (repairChildren ++
  [.elem "ComponentInformation" "" [windowRep "C12-1" "0" "Pszeudohiba", windowRep "C13-1" "5" "Hiba"]])

/-- A repair document with an unparsable PCBNumber. -/
def c7docBad : Node := .elem "Root" "" (repairChildren ++
  [.elem "ComponentInformation" "" [windowRep "C12-1" "abc" "Hiba"]])

/-- A repair document feeding the same truncated WinID twice into each
defect class of board 0. -/
def c9doc : Node := .elem "Root" "" (repairChildren ++
  [.elem "ComponentInformation" "" [windowRep "C12-1" "0" "Pszeudohiba", windowRep "C12-2" "0" "Pszeudohiba",
    windowRep "U1-1" "0" "Hiba", windowRep "U1-2" "0" "Hiba"]])


/-! ### Order facts for the board comparison -/

theorem lexLE_total : ∀ (a b : List Char), lexLE a b = true ∨ lexLE b a = true
  | [], b => Or.inl (by simp [lexLE])
  | _ :: _, [] => Or.inr (by simp [lexLE])
  | x :: xs, y :: ys => by
    rcases Nat.lt_trichotomy x.toNat y.toNat with h | h | h
    · exact Or.inl (by simp [lexLE, h])
    · rcases lexLE_total xs ys with ih | ih
      · exact Or.inl (by simp [lexLE, h, Nat.lt_irrefl, ih])
      · exact Or.inr (by simp [lexLE, h, Nat.lt_irrefl, ih])
    · exact Or.inr (by simp [lexLE, h])

theorem lexLE_trans : ∀ (a b c : List Char), lexLE a b = true → lexLE b c = true →
    lexLE a c = true
  | [], _, _, _, _ => by simp [lexLE]
  | _ :: _, [], _, hab, _ => by simp [lexLE] at hab
  | _ :: _, _ :: _, [], _, hbc => by simp [lexLE] at hbc
  | x :: xs, y :: ys, z :: zs, hab, hbc => by
    simp only [lexLE] at hab hbc ⊢
    by_cases h1 : x.toNat < y.toNat
    · simp only [h1, if_true] at hab
      by_cases h2 : y.toNat < z.toNat
      · simp [show x.toNat < z.toNat by omega]
      · simp only [h2, if_false] at hbc
        by_cases h3 : z.toNat < y.toNat
        · simp [h3] at hbc
        · simp [show x.toNat < z.toNat by omega]
    · simp only [h1, if_false] at hab
      by_cases h4 : y.toNat < x.toNat
      · simp [h4] at hab
      · simp only [h4, if_false] at hab
        by_cases h2 : y.toNat < z.toNat
        · simp [show x.toNat < z.toNat by omega]
        · simp only [h2, if_false] at hbc
          by_cases h3 : z.toNat < y.toNat
          · simp [h3] at hbc
          · simp only [h3, if_false] at hbc
            have hxz : ¬ x.toNat < z.toNat := by omega
            have hzx : ¬ z.toNat < x.toNat := by omega
            simp only [hxz, hzx, if_false]
            exact lexLE_trans xs ys zs hab hbc

instance : IsTotal Board boardLE :=
  ⟨fun a b => lexLE_total a.Serial_NMBR.data b.Serial_NMBR.data⟩

instance : IsTrans Board boardLE :=
  ⟨fun _ _ _ hab hbc => lexLE_trans _ _ _ hab hbc⟩

/-! ### Small general helpers -/

theorem ebind_ok {α β : Type} (x : α) (g : α → Except String β) :
    ((Except.ok x : Except String α) >>= g) = g x := rfl

theorem ebind_error {α β : Type} (e : String) (g : α → Except String β) :
    ((Except.error e : Except String α) >>= g) = .error e := rfl

theorem foldlM_ok_inv {σ α : Type} (f : σ → α → Except String σ) (P : σ → Prop)
    (hf : ∀ s a s2, P s → f s a = .ok s2 → P s2) :
    ∀ (l : List α) (s s2 : σ), P s → l.foldlM f s = .ok s2 → P s2 := by
  intro l
  induction l with
  | nil =>
    intro s s2 hs h
    rw [List.foldlM_nil] at h
    cases h
    exact hs
  | cons a as ih =>
    intro s s2 hs h
    rw [List.foldlM_cons] at h
    cases hfa : f s a with
    | error e => rw [hfa, ebind_error] at h; cases h
    | ok s1 =>
      rw [hfa, ebind_ok] at h
      exact ih s1 s2 (hf s a s1 hs hfa) h

theorem isEmpty_false_ne (s : String) (h : s.isEmpty = false) : s ≠ "" := by
  intro hs
  rw [hs] at h
  rw [(String.isEmpty_iff "").mpr rfl] at h
  exact Bool.noConfusion h

theorem snd_mem_of_mem_enum {α : Type} {l : List α} {pr : Nat × α} (h : pr ∈ l.enum) :
    pr.2 ∈ l := by
  obtain ⟨i, x⟩ := pr
  obtain ⟨hl, he⟩ := List.mem_enum h
  exact he ▸ List.getElem_mem hl

theorem fst_lt_of_mem_enum {α : Type} {l : List α} {pr : Nat × α} (h : pr ∈ l.enum) :
    pr.1 < l.length := by
  obtain ⟨i, x⟩ := pr
  exact (List.mem_enum h).1

/-! ### Tag facts -/

theorem hasTag_isElement (c : Node) (t : String) (h : c.hasTag t = true) :
    c.isElement = true := by
  cases c <;> simp [Node.hasTag, Node.isElement] at *

theorem hasTag_unique (c : Node) (t1 t2 : String) (h1 : c.hasTag t1 = true)
    (h2 : c.hasTag t2 = true) : t1 = t2 := by
  cases c with
  | other => simp [Node.hasTag] at h1
  | elem tag txt cs =>
    simp [Node.hasTag] at h1 h2
    rw [← h1, ← h2]

theorem hasTag_ne (c : Node) (t1 t2 : String) (h1 : c.hasTag t1 = true) (hne : t1 ≠ t2) :
    c.hasTag t2 = false := by
  cases hh : c.hasTag t2
  · rfl
  · exact absurd (hasTag_unique c t1 t2 h1 hh) hne

/-! ### The repaired flag is exactly the presence of a Repair element -/

theorem globalStep_snd (st : Panel × Bool) (c : Node) :
    (globalStep st c).2 = (st.2 || c.hasTag "Repair") := by
  unfold globalStep
  by_cases h1 : c.hasTag "Program"
  · rw [hasTag_ne c "Program" "Repair" h1 (by decide)]
    cases hf : findChild c "InspectionPlanName" <;> simp [h1, hf]
  · by_cases h2 : c.hasTag "Inspection"
    · rw [hasTag_ne c "Inspection" "Repair" h2 (by decide)]
      simp [h1, h2]
    · by_cases h3 : c.hasTag "Repair"
      · simp [h1, h2, h3]
      · simp [h1, h2, h3]

theorem globalFold_snd (l : List Node) (st : Panel × Bool) :
    (l.foldl globalStep st).2 = (st.2 || l.any (fun c => c.hasTag "Repair")) := by
  induction l generalizing st with
  | nil => simp
  | cons c cs ih =>
    rw [List.foldl_cons, ih, globalStep_snd]
    simp [Bool.or_assoc]

/-! ### The failed flag stays false when every SinglePCB result is PASS -/

theorem pcbStep_snd (st : Panel × Bool) (ib : Nat × Node) (st1 : Panel × Bool)
    (hres : (extractPCB ib.2).2 = "PASS") (h : pcbStep st ib = .ok st1) : st1.2 = st.2 := by
  unfold pcbStep at h
  rw [hres] at h
  split at h
  · cases h
    simp
  · cases h

theorem pcbFold_flag (l : List (Nat × Node)) (st pf : Panel × Bool)
    (hall : ∀ pr ∈ l, (extractPCB pr.2).2 = "PASS")
    (h : l.foldlM pcbStep st = .ok pf) : pf.2 = st.2 := by
  induction l generalizing st with
  | nil =>
    rw [List.foldlM_nil] at h
    cases h
    rfl
  | cons a as ih =>
    rw [List.foldlM_cons] at h
    cases hfa : pcbStep st a with
    | error e => rw [hfa, ebind_error] at h; cases h
    | ok st1 =>
      rw [hfa, ebind_ok] at h
      have hst1 : st1.2 = st.2 :=
        pcbStep_snd st a st1 (hall a (List.mem_cons_self a as)) hfa
      exact (ih st1 (fun pr hpr => hall pr (List.mem_cons_of_mem a hpr)) h).trans hst1

/-! ### checkBoards characterisation -/

theorem checkBoards_ok (p : Panel) (h : checkBoards p = .ok ()) :
    ∀ b ∈ p.Boards, b.Serial_NMBR ≠ "" ∧ b.Result ≠ "" := by
  unfold checkBoards at h
  split at h
  · cases h
  · rename_i hcond
    intro b hb
    have h2 : ¬ ((b.Serial_NMBR.isEmpty || b.Result.isEmpty) = true) := by
      intro hbad
      exact hcond (List.any_eq_true.mpr ⟨b, hb, hbad⟩)
    simp only [Bool.not_eq_true, Bool.or_eq_false_iff] at h2
    exact ⟨isEmpty_false_ne b.Serial_NMBR h2.1, isEmpty_false_ne b.Result h2.2⟩


/-! ### Field and invariant preservation through the window updates -/

theorem pushFailed_serial (b : Board) (w : String) :
    (pushFailed b w).Serial_NMBR = b.Serial_NMBR ∧ (pushFailed b w).Result = b.Result ∧
    (pushFailed b w).Pseudo = b.Pseudo := by
  unfold pushFailed
  split <;> simp

theorem pushPseudo_serial (b : Board) (w : String) :
    (pushPseudo b w).Serial_NMBR = b.Serial_NMBR ∧ (pushPseudo b w).Result = b.Result ∧
    (pushPseudo b w).Failed = b.Failed := by
  unfold pushPseudo
  split <;> simp

theorem classifyWindow_serial (b : Board) (res wid : String) :
    (classifyWindow b res wid).Serial_NMBR = b.Serial_NMBR ∧
    (classifyWindow b res wid).Result = b.Result := by
  unfold classifyWindow
  split
  · exact ⟨(pushFailed_serial b wid).1, (pushFailed_serial b wid).2.1⟩
  · exact ⟨(pushPseudo_serial b wid).1, (pushPseudo_serial b wid).2.1⟩

theorem contains_false_not_mem (l : List String) (a : String) (h : l.contains a = false) :
    a ∉ l := by
  intro hm
  rw [show l.contains a = List.elem a l from rfl, List.elem_iff.mpr hm] at h
  exact Bool.noConfusion h

theorem pushFailed_nodup (b : Board) (w : String) (h : b.Failed.Nodup) :
    (pushFailed b w).Failed.Nodup := by
  unfold pushFailed
  split
  · rename_i hc
    simp only [Bool.not_eq_true'] at hc
    simp [List.nodup_append, h, contains_false_not_mem b.Failed w hc]
  · exact h

theorem pushPseudo_nodup (b : Board) (w : String) (h : b.Pseudo.Nodup) :
    (pushPseudo b w).Pseudo.Nodup := by
  unfold pushPseudo
  split
  · rename_i hc
    simp only [Bool.not_eq_true'] at hc
    simp [List.nodup_append, h, contains_false_not_mem b.Pseudo w hc]
  · exact h

theorem classifyWindow_nodup (b : Board) (res wid : String)
    (h : b.Failed.Nodup ∧ b.Pseudo.Nodup) :
    (classifyWindow b res wid).Failed.Nodup ∧ (classifyWindow b res wid).Pseudo.Nodup := by
  unfold classifyWindow
  split
  · exact ⟨pushFailed_nodup b wid h.1, by rw [(pushFailed_serial b wid).2.2]; exact h.2⟩
  · exact ⟨by rw [(pushPseudo_serial b wid).2.2]; exact h.1, pushPseudo_nodup b wid h.2⟩

theorem repairWindowStep_pres (P : Board → Prop)
    (hcl : ∀ b res wid, P b → P (classifyWindow b res wid))
    (p : Panel) (w : Node) (p2 : Panel)
    (hp : ∀ b ∈ p.Boards, P b) (h : repairWindowStep p w = .ok p2) :
    ∀ b ∈ p2.Boards, P b := by
  unfold repairWindowStep at h
  split at h
  · split at h
    · split at h
      · rename_i x board hget
        cases h
        intro b hb
        rcases List.mem_or_eq_of_mem_set hb with hb2 | hb2
        · exact hp b hb2
        · rw [hb2]
          exact hcl board _ _ (hp board (List.get?_mem hget))
      · cases h
        exact hp
    · cases h
  · cases h

theorem aoiWindowStep_pres (P : Board → Prop)
    (hpf : ∀ b wid, P b → P (pushFailed b wid))
    (p : Panel) (w : Node) (p2 : Panel)
    (hp : ∀ b ∈ p.Boards, P b) (h : aoiWindowStep p w = .ok p2) :
    ∀ b ∈ p2.Boards, P b := by
  unfold aoiWindowStep at h
  split at h
  · split at h
    · split at h
      · split at h
        · cases h
        · split at h
          · rename_i x hx board hget
            cases h
            intro b hb
            rcases List.mem_or_eq_of_mem_set hb with hb2 | hb2
            · exact hp b hb2
            · rw [hb2]
              exact hpf board _ (hp board (List.get?_mem hget))
          · cases h
      · cases h
    · cases h
      exact hp
  · cases h

theorem parseRepairWindows_pres (P : Board → Prop)
    (hcl : ∀ b res wid, P b → P (classifyWindow b res wid))
    (ci? : Option Node) (p p2 : Panel)
    (hp : ∀ b ∈ p.Boards, P b) (h : parseRepairWindows ci? p = .ok p2) :
    ∀ b ∈ p2.Boards, P b := by
  unfold parseRepairWindows at h
  cases ci? with
  | none => cases h; exact hp
  | some ci =>
    exact foldlM_ok_inv repairWindowStep (fun q => ∀ b ∈ q.Boards, P b)
      (fun s a s2 hs hstep => repairWindowStep_pres P hcl s a s2 hs hstep)
      _ p p2 hp h

theorem parseAOIWindows_pres (P : Board → Prop)
    (hpf : ∀ b wid, P b → P (pushFailed b wid))
    (ci? : Option Node) (p p2 : Panel)
    (hp : ∀ b ∈ p.Boards, P b) (h : parseAOIWindows ci? p = .ok p2) :
    ∀ b ∈ p2.Boards, P b := by
  unfold parseAOIWindows at h
  cases ci? with
  | none => cases h; exact hp
  | some ci =>
    exact foldlM_ok_inv aoiWindowStep (fun q => ∀ b ∈ q.Boards, P b)
      (fun s a s2 hs hstep => aoiWindowStep_pres P hpf s a s2 hs hstep)
      _ p p2 hp h

/-! ### Boards coming out of the earlier phases -/

theorem globalStep_boards (st : Panel × Bool) (c : Node) :
    (globalStep st c).1.Boards = st.1.Boards := by
  unfold globalStep
  by_cases h1 : c.hasTag "Program"
  · cases hf : findChild c "InspectionPlanName" <;> simp [h1, hf]
  · by_cases h2 : c.hasTag "Inspection"
    · simp [h1, h2]
    · by_cases h3 : c.hasTag "Repair"
      · cases hf : findChild c "OperatorName" <;> simp [h1, h2, h3, hf]
      · simp [h1, h2, h3]

theorem globalFold_boards (l : List Node) (st : Panel × Bool) :
    (l.foldl globalStep st).1.Boards = st.1.Boards := by
  induction l generalizing st with
  | nil => rfl
  | cons c cs ih => rw [List.foldl_cons, ih, globalStep_boards]

theorem parseGlobal_boards (g? : Option Node) (pr : Panel × Bool)
    (h : parseGlobal g? = .ok pr) : pr.1.Boards = [] := by
  unfold parseGlobal at h
  cases g? with
  | none => cases h
  | some g =>
    cases h
    rw [globalFold_boards]
    rfl

theorem pcbStep_clean (st : Panel × Bool) (ib : Nat × Node) (st2 : Panel × Bool)
    (hs : ∀ b ∈ st.1.Boards, b.Failed = [] ∧ b.Pseudo = [])
    (h : pcbStep st ib = .ok st2) : ∀ b ∈ st2.1.Boards, b.Failed = [] ∧ b.Pseudo = [] := by
  unfold pcbStep at h
  split at h
  · cases h
    intro b hb
    rcases List.mem_or_eq_of_mem_set hb with hb2 | hb2
    · exact hs b hb2
    · rw [hb2]
      unfold updSerial
      rw [List.getD_eq_getElem?_getD, ← List.get?_eq_getElem?]
      cases hg : st.1.Boards.get? ib.1 with
      | none => exact ⟨rfl, rfl⟩
      | some bb => exact ⟨(hs bb (List.get?_mem hg)).1, (hs bb (List.get?_mem hg)).2⟩
  · cases h

theorem parsePCB_clean (pcb? : Option Node) (p : Panel) (pf : Panel × Bool)
    (hp : ∀ b ∈ p.Boards, b.Failed = [] ∧ b.Pseudo = [])
    (h : parsePCB pcb? p = .ok pf) :
    ∀ b ∈ pf.1.Boards, b.Failed = [] ∧ b.Pseudo = [] := by
  unfold parsePCB at h
  cases pcb? with
  | none => cases h; exact hp
  | some pcbInfo =>
    apply foldlM_ok_inv pcbStep (fun st => ∀ b ∈ st.1.Boards, b.Failed = [] ∧ b.Pseudo = [])
      (fun s a s2 hs hstep => pcbStep_clean s a s2 hs hstep) _ _ _ ?init h
    intro b hb
    rw [List.mem_replicate] at hb
    rw [hb.2]
    exact ⟨rfl, rfl⟩


/-! ### Normalisation: renumbering and sorting -/

theorem renumber_fields (l : List Board) (b : Board) (hb : b ∈ renumber l) :
    ∃ b0 ∈ l, b.Serial_NMBR = b0.Serial_NMBR ∧ b.Result = b0.Result ∧
      b.Failed = b0.Failed ∧ b.Pseudo = b0.Pseudo := by
  unfold renumber at hb
  rcases List.mem_map.mp hb with ⟨pr, hpr, heq⟩
  refine ⟨pr.2, snd_mem_of_mem_enum hpr, ?_⟩
  rw [← heq]
  exact ⟨rfl, rfl, rfl, rfl⟩

theorem renumber_serials (l : List Board) :
    (renumber l).map Board.Serial_NMBR = l.map Board.Serial_NMBR := by
  unfold renumber
  rw [List.map_map]
  rw [show (Board.Serial_NMBR ∘ fun pr : Nat × Board => { pr.2 with Board_NMBR := pr.1 + 1 })
      = (Board.Serial_NMBR ∘ Prod.snd) from rfl]
  rw [← List.map_map, List.enum_map_snd]

theorem renumber_nmbr (l : List Board) :
    (renumber l).map Board.Board_NMBR = List.range' 1 l.length := by
  unfold renumber
  rw [List.map_map]
  rw [show (Board.Board_NMBR ∘ fun pr : Nat × Board => { pr.2 with Board_NMBR := pr.1 + 1 })
      = ((fun n => n + 1) ∘ Prod.fst) from rfl]
  rw [← List.map_map, List.enum_map_fst, List.range'_eq_map_range]
  simp [Nat.add_comm]

theorem renumber_length (l : List Board) : (renumber l).length = l.length := by
  unfold renumber
  rw [List.length_map, List.enum_length]

theorem renumber_pairwise (l : List Board) (h : List.Pairwise boardLE l) :
    List.Pairwise boardLE (renumber l) := by
  have h1 : List.Pairwise (fun s t : String => lexLE s.data t.data = true)
      (l.map Board.Serial_NMBR) := List.pairwise_map.mpr h
  rw [← renumber_serials] at h1
  exact (@List.pairwise_map Board String Board.Serial_NMBR
    (fun s t => lexLE s.data t.data = true) (renumber l)).mp h1

theorem finalize_sorted (r : Bool) (line : String) (p : Panel) :
    List.Pairwise boardLE (finalize r line p).Boards := by
  unfold finalize
  exact renumber_pairwise _ (List.sorted_insertionSort boardLE p.Boards)

theorem finalize_nmbr (r : Bool) (line : String) (p : Panel) :
    (finalize r line p).Boards.map Board.Board_NMBR
      = List.range' 1 (finalize r line p).Boards.length := by
  unfold finalize
  rw [renumber_nmbr, renumber_length, List.length_insertionSort]

theorem finalize_mem (r : Bool) (line : String) (p : Panel) (b : Board)
    (hb : b ∈ (finalize r line p).Boards) :
    ∃ b0 ∈ p.Boards, b.Serial_NMBR = b0.Serial_NMBR ∧ b.Result = b0.Result ∧
      b.Failed = b0.Failed ∧ b.Pseudo = b0.Pseudo := by
  unfold finalize at hb
  rcases renumber_fields _ b hb with ⟨b0, hb0, hf⟩
  exact ⟨b0, (List.perm_insertionSort boardLE p.Boards).mem_iff.mp hb0, hf⟩

/-! ### Decomposition of a successful parse -/

theorem parse_xml_ok_shape (root : Node) (line : String) (p : Panel)
    (h : parse_xml root line = .ok p) :
    ∃ (repaired failed : Bool) (p0 p1 p2 : Panel),
      parseGlobal (findChild root "GlobalInformation") = .ok (p0, repaired) ∧
      parsePCB (findChild root "PCBInformation") p0 = .ok (p1, failed) ∧
      checkBoards p1 = .ok () ∧
      (if repaired then parseRepairWindows (findChild root "ComponentInformation") p1
       else if failed then parseAOIWindows (findChild root "ComponentInformation") p1
       else .ok p1) = .ok p2 ∧
      p = finalize repaired line p2 := by
  unfold parse_xml parseDoc at h
  split at h
  · cases h
  · rename_i pr p0 repaired hg
    split at h
    · cases h
    · split at h
      · cases h
      · rename_i pf p1 failed hpcb
        split at h
        · cases h
        · rename_i u hcheck
          split at h
          · cases h
          · rename_i p2 hw
            cases h
            obtain ⟨⟩ := u
            exact ⟨repaired, failed, p0, p1, p2, hg, hpcb, hcheck, hw, rfl⟩


/-! ### Flags of a successful parse -/

theorem parseGlobal_repaired (g? : Option Node) (pr : Panel × Bool)
    (h : parseGlobal g? = .ok pr) : pr.2 = hasRepair g? := by
  unfold parseGlobal at h
  unfold hasRepair
  cases g? with
  | none => cases h
  | some g =>
    cases h
    rw [globalFold_snd]
    simp

theorem parsePCB_failed (pcb? : Option Node) (p : Panel) (pf : Panel × Bool)
    (hpass : allPass pcb? = true) (h : parsePCB pcb? p = .ok pf) : pf.2 = false := by
  unfold parsePCB at h
  cases pcb? with
  | none => cases h; rfl
  | some pcbInfo =>
    refine pcbFold_flag _ _ _ ?hall h
    intro pr hpr
    unfold allPass at hpass
    rw [List.all_eq_true] at hpass
    have := hpass pr.2 (snd_mem_of_mem_enum hpr)
    exact eq_of_beq this

/-! ### The AOI/AXI run ignores ComponentInformation on all-PASS documents -/

theorem parseDoc_ci_irrelevant (g? pcb? ci1 ci2 : Option Node) (line : String)
    (hrep : hasRepair g? = false) (hpass : allPass pcb? = true) :
    parseDoc g? pcb? ci1 line = parseDoc g? pcb? ci2 line := by
  unfold parseDoc
  cases hg : parseGlobal g? with
  | error e => rfl
  | ok pr =>
    obtain ⟨p0, rep⟩ := pr
    have hr : rep = false := by
      have := parseGlobal_repaired g? (p0, rep) hg
      rw [hrep] at this
      exact this
    subst hr
    simp only
    split
    · rfl
    · cases hpc : parsePCB pcb? p0 with
      | error e => rfl
      | ok pf =>
        obtain ⟨p1, failed⟩ := pf
        have hf : failed = false := parsePCB_failed pcb? p0 (p1, failed) hpass hpc
        subst hf
        simp only
        cases checkBoards p1 with
        | error e => rfl
        | ok u => rfl


/-! ### Per-window behaviour of the two branches -/

theorem ne_isEmpty_false (s : String) (h : s ≠ "") : s.isEmpty = false := by
  cases he : s.isEmpty
  · rfl
  · exact absurd ((String.isEmpty_iff s).mp he) h

theorem aoiStep_zero (p : Panel) (w : Node) (wid pn res : String)
    (hw : extractAOIWindow w = (wid, pn, res)) (h1 : wid ≠ "") (h2 : pn ≠ "")
    (h3 : res ≠ "") (h4 : res ≠ "0") (hx : parseUsize pn = some 0) :
    aoiWindowStep p w = .error "BoardNumber is 0. Was excepting 1+" := by
  unfold aoiWindowStep
  rw [hw]
  simp only [ne_isEmpty_false _ h1, ne_isEmpty_false _ h2, ne_isEmpty_false _ h3]
  simp [bne_iff_ne.mpr h4, hx]

theorem aoiStep_hit (p : Panel) (w : Node) (wid pn res : String) (x : Nat) (board : Board)
    (hw : extractAOIWindow w = (wid, pn, res)) (h1 : wid ≠ "") (h2 : pn ≠ "")
    (h3 : res ≠ "") (h4 : res ≠ "0") (hx : parseUsize pn = some x) (hx0 : x ≠ 0)
    (hget : p.Boards.get? (x - 1) = some board) :
    aoiWindowStep p w
      = .ok { p with Boards := p.Boards.set (x - 1) (pushFailed board (truncWinID wid)) } := by
  unfold aoiWindowStep
  rw [hw]
  rw [List.get?_eq_getElem?] at hget
  simp only [ne_isEmpty_false _ h1, ne_isEmpty_false _ h2, ne_isEmpty_false _ h3]
  simp [bne_iff_ne.mpr h4, hx, hx0, hget]

theorem aoiStep_miss (p : Panel) (w : Node) (wid pn res : String) (x : Nat)
    (hw : extractAOIWindow w = (wid, pn, res)) (h1 : wid ≠ "") (h2 : pn ≠ "")
    (h3 : res ≠ "") (h4 : res ≠ "0") (hx : parseUsize pn = some x) (hx0 : x ≠ 0)
    (hget : p.Boards.get? (x - 1) = none) :
    aoiWindowStep p w = .error ("Could not find board number " ++ toString x) := by
  unfold aoiWindowStep
  rw [hw]
  rw [List.get?_eq_getElem?] at hget
  simp only [ne_isEmpty_false _ h1, ne_isEmpty_false _ h2, ne_isEmpty_false _ h3]
  simp [bne_iff_ne.mpr h4, hx, hx0, hget]

theorem repairStep_hit (p : Panel) (w : Node) (wid pn res : String) (x : Nat) (board : Board)
    (hw : extractRepairWindow w = (wid, pn, res)) (h1 : wid ≠ "") (h2 : pn ≠ "")
    (h3 : res ≠ "") (hx : parseUsize pn = some x)
    (hget : p.Boards.get? x = some board) :
    repairWindowStep p w
      = .ok { p with Boards := p.Boards.set x (classifyWindow board res (truncWinID wid)) } := by
  unfold repairWindowStep
  rw [hw]
  rw [List.get?_eq_getElem?] at hget
  simp only [ne_isEmpty_false _ h1, ne_isEmpty_false _ h2, ne_isEmpty_false _ h3]
  simp [hx, hget]

theorem repairStep_miss (p : Panel) (w : Node) (wid pn res : String) (x : Nat)
    (hw : extractRepairWindow w = (wid, pn, res)) (h1 : wid ≠ "") (h2 : pn ≠ "")
    (h3 : res ≠ "") (hx : parseUsize pn = some x)
    (hget : p.Boards.get? x = none) :
    repairWindowStep p w = .ok p := by
  unfold repairWindowStep
  rw [hw]
  rw [List.get?_eq_getElem?] at hget
  simp only [ne_isEmpty_false _ h1, ne_isEmpty_false _ h2, ne_isEmpty_false _ h3]
  simp [hx, hget]

theorem repairStep_badparse (p : Panel) (w : Node) (wid pn res : String)
    (hw : extractRepairWindow w = (wid, pn, res)) (h1 : wid ≠ "") (h2 : pn ≠ "")
    (h3 : res ≠ "") (hx : parseUsize pn = none) :
    repairWindowStep p w = .error ("Could not parse PCBNumber: " ++ pn) := by
  unfold repairWindowStep
  rw [hw]
  simp only [ne_isEmpty_false _ h1, ne_isEmpty_false _ h2, ne_isEmpty_false _ h3]
  simp [hx]

/-! ### WinID truncation -/

theorem truncDash_eq_none (l : List Char) (h : ('-' : Char) ∉ l) : truncDash l = none := by
  induction l with
  | nil => rfl
  | cons c cs ih =>
    simp only [truncDash]
    rw [ih (fun hm => h (List.mem_cons_of_mem c hm))]
    have hc : ¬ c = '-' := fun hc => h (hc ▸ List.mem_cons_self c cs)
    simp [hc]

theorem truncDash_append (a b : List Char) (h : ('-' : Char) ∉ b) :
    truncDash (a ++ '-' :: b) = some a := by
  induction a with
  | nil =>
    have hu : truncDash ([] ++ '-' :: b)
        = match truncDash b with
          | some pre => some ('-' :: pre)
          | none => if ('-' : Char) = '-' then some [] else none := rfl
    rw [hu, truncDash_eq_none b h]
    simp
  | cons c cs ih =>
    have hu : truncDash ((c :: cs) ++ '-' :: b)
        = match truncDash (cs ++ '-' :: b) with
          | some pre => some (c :: pre)
          | none => if c = '-' then some [] else none := rfl
    rw [hu, ih]

theorem truncWinID_no_dash (s : String) (h : ('-' : Char) ∉ s.data) : truncWinID s = s := by
  unfold truncWinID
  rw [show s.toList = s.data from rfl, truncDash_eq_none s.data h]

theorem truncWinID_strip (a b : String) (h : ('-' : Char) ∉ b.data) :
    truncWinID (a ++ "-" ++ b) = a := by
  unfold truncWinID
  have hd : (a ++ "-" ++ b).toList = a.data ++ '-' :: b.data := by
    show (a ++ "-" ++ b).data = _
    rw [String.data_append, String.data_append]
    show (a.data ++ ['-']) ++ b.data = _
    simp
  rw [hd, truncDash_append a.data b.data h]


/-! ### Invariants of every successfully returned Panel -/

theorem parse_xml_ok_fields (root : Node) (line : String) (p : Panel)
    (h : parse_xml root line = .ok p) :
    ∀ b ∈ p.Boards, b.Serial_NMBR ≠ "" ∧ b.Result ≠ "" := by
  obtain ⟨repaired, failed, p0, p1, p2, hg, hpcb, hcheck, hw, hp⟩ :=
    parse_xml_ok_shape root line p h
  have h1 : ∀ b ∈ p1.Boards, b.Serial_NMBR ≠ "" ∧ b.Result ≠ "" := checkBoards_ok p1 hcheck
  have h2 : ∀ b ∈ p2.Boards, b.Serial_NMBR ≠ "" ∧ b.Result ≠ "" := by
    cases repaired with
    | true =>
      rw [if_pos rfl] at hw
      refine parseRepairWindows_pres _ ?hcl _ p1 p2 h1 hw
      intro b res wid hb
      exact ⟨by rw [(classifyWindow_serial b res wid).1]; exact hb.1,
             by rw [(classifyWindow_serial b res wid).2]; exact hb.2⟩
    | false =>
      rw [if_neg (by simp)] at hw
      cases failed with
      | true =>
        rw [if_pos rfl] at hw
        refine parseAOIWindows_pres _ ?hpf _ p1 p2 h1 hw
        intro b wid hb
        exact ⟨by rw [(pushFailed_serial b wid).1]; exact hb.1,
               by rw [(pushFailed_serial b wid).2.1]; exact hb.2⟩
      | false =>
        rw [if_neg (by simp)] at hw
        cases hw
        exact h1
  subst hp
  intro b hb
  rcases finalize_mem repaired line p2 b hb with ⟨b0, hb0, hs, hr, _, _⟩
  rw [hs, hr]
  exact h2 b0 hb0

theorem parse_xml_ok_nodup (root : Node) (line : String) (p : Panel)
    (h : parse_xml root line = .ok p) :
    ∀ b ∈ p.Boards, b.Failed.Nodup ∧ b.Pseudo.Nodup := by
  obtain ⟨repaired, failed, p0, p1, p2, hg, hpcb, hcheck, hw, hp⟩ :=
    parse_xml_ok_shape root line p h
  have h0 : ∀ b ∈ p0.Boards, b.Failed = [] ∧ b.Pseudo = [] := by
    intro b hb
    rw [show p0.Boards = ((p0, repaired) : Panel × Bool).1.Boards from rfl,
      parseGlobal_boards _ _ hg] at hb
    cases hb
  have h1 : ∀ b ∈ p1.Boards, b.Failed = [] ∧ b.Pseudo = [] :=
    parsePCB_clean _ p0 (p1, failed) h0 hpcb
  have h1n : ∀ b ∈ p1.Boards, b.Failed.Nodup ∧ b.Pseudo.Nodup := by
    intro b hb
    exact ⟨by rw [(h1 b hb).1]; exact List.nodup_nil,
           by rw [(h1 b hb).2]; exact List.nodup_nil⟩
  have h2 : ∀ b ∈ p2.Boards, b.Failed.Nodup ∧ b.Pseudo.Nodup := by
    cases repaired with
    | true =>
      rw [if_pos rfl] at hw
      exact parseRepairWindows_pres _ (fun b res wid hb => classifyWindow_nodup b res wid hb)
        _ p1 p2 h1n hw
    | false =>
      rw [if_neg (by simp)] at hw
      cases failed with
      | true =>
        rw [if_pos rfl] at hw
        refine parseAOIWindows_pres _ ?hpf _ p1 p2 h1n hw
        intro b wid hb
        exact ⟨pushFailed_nodup b wid hb.1,
               by rw [(pushFailed_serial b wid).2.2]; exact hb.2⟩
      | false =>
        rw [if_neg (by simp)] at hw
        cases hw
        exact h1n
  subst hp
  intro b hb
  rcases finalize_mem repaired line p2 b hb with ⟨b0, hb0, _, _, hf, hps⟩
  rw [hf, hps]
  exact h2 b0 hb0


/-! ### Claim theorems -/

/-- C1 (counterexample): a repair document with a non-empty program, a
repair_time in 2024 and no PCB or window problems at all is rejected by
parse_xml when its Inspection date/time is absent, contrary to the
claim that inspection_time is mandatory only for non-repair documents. -/
theorem C1_counterexample :
    hasRepair (findChild c1doc "GlobalInformation") = true ∧
    (okPG (parseGlobal (findChild c1doc "GlobalInformation"))).1.Repair_DT.year = 2024 ∧
    parse_xml c1doc "L" = .error "Missing mandatory <GlobalInformation> elements!" :=
  ⟨rfl, rfl, rfl⟩

/-- C1 (amended): the Inspection timestamp is mandatory for every
document, repair documents included: whenever the GlobalInformation
interpretation leaves an inspection year below 2000 (absent or
unparsable date included), parse_xml fails with the mandatory-elements
error, regardless of the repair fields. -/
theorem C1_inspection_mandatory_for_all (root : Node) (line : String) (pr : Panel × Bool)
    (hg : parseGlobal (findChild root "GlobalInformation") = .ok pr)
    (hy : pr.1.Inspection_DT.year < 2000) :
    parse_xml root line = .error "Missing mandatory <GlobalInformation> elements!" := by
  obtain ⟨p0, rep⟩ := pr
  unfold parse_xml parseDoc
  rw [hg]
  simp only
  have hd : decide (p0.Inspection_DT.year < 2000) = true := decide_eq_true hy
  simp [hd]

/-- C1 witness: the amended theorem applied to the concrete repair
document without an Inspection section. -/
theorem C1_witness :
    (okPG (parseGlobal (findChild c1doc "GlobalInformation"))).1.Inspection_DT.year < 2000 ∧
    parse_xml c1doc "L" = .error "Missing mandatory <GlobalInformation> elements!" :=
  ⟨by decide, C1_inspection_mandatory_for_all c1doc "L"
    (okPG (parseGlobal (findChild c1doc "GlobalInformation"))) rfl (by decide)⟩

/-- C2 (counterexample): parse_xml accepts a document whose two boards
carry the same serial "A", so the serials of a returned Panel are not
pairwise distinct. -/
theorem C2_counterexample :
    (parse_xml c2doc "L").map (fun p => p.Boards.map Board.Serial_NMBR) = .ok ["A", "A"] ∧
    ¬ List.Pairwise (fun a b : String => a ≠ b) ["A", "A"] :=
  ⟨rfl, by simp⟩

/-- C2 (amended): in every Panel returned successfully by parse_xml
every board carries a non-empty serial, but pairwise distinctness of
the serials is not enforced: duplicates can be returned. -/
theorem C2_serials_nonempty (root : Node) (line : String) (p : Panel)
    (h : parse_xml root line = .ok p) : ∀ b ∈ p.Boards, b.Serial_NMBR ≠ "" :=
  fun b hb => (parse_xml_ok_fields root line p h b hb).1

/-- C2 witness: the amended theorem applied to the duplicate-serial
document. -/
theorem C2_witness :
    (okPanel (parse_xml c2doc "L")).Boards.map Board.Serial_NMBR = ["A", "A"] ∧
    (∀ b ∈ (okPanel (parse_xml c2doc "L")).Boards, b.Serial_NMBR ≠ "") :=
  ⟨rfl, C2_serials_nonempty c2doc "L" (okPanel (parse_xml c2doc "L")) rfl⟩

/-- C3: every board of every successfully returned Panel has a
non-empty serial and a non-empty result, and a PCBInformation section
whose declared element count exceeds its SinglePCB children leaves
default slots that make the whole parse fail instead. -/
theorem C3_boards_validated :
    (∀ (root : Node) (line : String) (p : Panel), parse_xml root line = .ok p →
      ∀ b ∈ p.Boards, b.Serial_NMBR ≠ "" ∧ b.Result ≠ "") ∧
    parse_xml c3doc "L" = .error "Board serial or result is missing!" :=
  ⟨parse_xml_ok_fields, rfl⟩

/-- C3 witness: the invariant applied to a concrete two-board parse. -/
theorem C3_witness :
    (okPanel (parse_xml c4doc "L")).Boards.map Board.Serial_NMBR = ["A", "B"] ∧
    (∀ b ∈ (okPanel (parse_xml c4doc "L")).Boards, b.Serial_NMBR ≠ "" ∧ b.Result ≠ "") :=
  ⟨rfl, C3_boards_validated.1 c4doc "L" (okPanel (parse_xml c4doc "L")) rfl⟩

/-- C4: the boards of every successfully returned Panel are sorted by
serial in ascending lexicographic order, and the Board_NMBR values are
exactly 1..N in post-sort order. -/
theorem C4_sorted_renumbered (root : Node) (line : String) (p : Panel)
    (h : parse_xml root line = .ok p) :
    List.Pairwise boardLE p.Boards ∧
    p.Boards.map Board.Board_NMBR = List.range' 1 p.Boards.length := by
  obtain ⟨repaired, failed, p0, p1, p2, hg, hpcb, hcheck, hw, hp⟩ :=
    parse_xml_ok_shape root line p h
  subst hp
  exact ⟨finalize_sorted repaired line p2, finalize_nmbr repaired line p2⟩

/-- C4 witness: a document whose serials arrive out of order is
returned sorted with positions 1 and 2. -/
theorem C4_witness :
    ((okPanel (parse_xml c4doc "L")).Boards.map Board.Serial_NMBR = ["A", "B"] ∧
     (okPanel (parse_xml c4doc "L")).Boards.map Board.Board_NMBR = [1, 2]) ∧
    (List.Pairwise boardLE (okPanel (parse_xml c4doc "L")).Boards ∧
     (okPanel (parse_xml c4doc "L")).Boards.map Board.Board_NMBR
       = List.range' 1 (okPanel (parse_xml c4doc "L")).Boards.length) :=
  ⟨⟨rfl, rfl⟩, C4_sorted_renumbered c4doc "L" (okPanel (parse_xml c4doc "L")) rfl⟩

/-- C5: for non-repair documents in which every SinglePCB result is
PASS, the ComponentInformation section is never scanned: two documents
agreeing on GlobalInformation and PCBInformation but differing
arbitrarily in ComponentInformation parse to identical outcomes. -/
theorem C5_component_info_ignored (r1 r2 : Node) (line : String)
    (hG : findChild r1 "GlobalInformation" = findChild r2 "GlobalInformation")
    (hP : findChild r1 "PCBInformation" = findChild r2 "PCBInformation")
    (hrep : hasRepair (findChild r1 "GlobalInformation") = false)
    (hpass : allPass (findChild r1 "PCBInformation") = true) :
    parse_xml r1 line = parse_xml r2 line := by
  unfold parse_xml
  rw [← hG, ← hP]
  exact parseDoc_ci_irrelevant _ _ _ _ line hrep hpass

/-- C5 witness: adding a ComponentInformation section with a malformed
window to an all-PASS AOI document does not change the parse result,
which stays successful. -/
theorem C5_witness :
    parse_xml c5doc1 "L" = parse_xml c5doc2 "L" ∧
    (parse_xml c5doc1 "L").map Panel.Station = .ok "L_AOI_AXI" :=
  ⟨C5_component_info_ignored c5doc1 c5doc2 "L" rfl rfl rfl rfl, rfl⟩


/-- C6: in the AOI/AXI defect-window branch, a window with non-empty
fields and a result code other than "0" is handled by its one-based
PCBNumber: value 0 is a hard failure, value N with an existing slot
N-1 updates exactly that slot, and value N without a slot N-1 is a
hard failure; the two concrete documents show the whole parse failing
on board number 0 and on the non-existent board number 9. -/
theorem C6_aoi_indexing :
    (∀ (p : Panel) (w : Node) (wid pn res : String) (x : Nat),
      extractAOIWindow w = (wid, pn, res) → wid ≠ "" → pn ≠ "" → res ≠ "" → res ≠ "0" →
      parseUsize pn = some x →
      ((x = 0 → aoiWindowStep p w = .error "BoardNumber is 0. Was excepting 1+") ∧
       (∀ board, x ≠ 0 → p.Boards.get? (x - 1) = some board →
         aoiWindowStep p w
           = .ok { p with Boards := p.Boards.set (x - 1) (pushFailed board (truncWinID wid)) }) ∧
       (x ≠ 0 → p.Boards.get? (x - 1) = none →
         aoiWindowStep p w = .error ("Could not find board number " ++ toString x)))) ∧
    parse_xml c6doc0 "L" = .error "BoardNumber is 0. Was excepting 1+" ∧
    parse_xml c6doc9 "L" = .error "Could not find board number 9" := by
  refine ⟨?_, rfl, rfl⟩
  intro p w wid pn res x hw h1 h2 h3 h4 hx
  refine ⟨fun hx0 => aoiStep_zero p w wid pn res hw h1 h2 h3 h4 (hx0 ▸ hx), ?_, ?_⟩
  · intro board hx0 hget
    exact aoiStep_hit p w wid pn res x board hw h1 h2 h3 h4 hx hx0 hget
  · intro hx0 hget
    exact aoiStep_miss p w wid pn res x hw h1 h2 h3 h4 hx hx0 hget

/-- C6 witness: the step theorem applied to a concrete window with
PCBNumber 0. -/
theorem C6_witness :
    aoiWindowStep Panel.default (windowAOI "U9-3" "0" "5")
      = .error "BoardNumber is 0. Was excepting 1+" :=
  (C6_aoi_indexing.1 Panel.default (windowAOI "U9-3" "0" "5") "U9-3" "0" "5" 0 rfl
    (by decide) (by decide) (by decide) (by decide) rfl).1 rfl

/-- C7: in the repair defect-window branch, a window with non-empty
fields uses its PCBNumber as a zero-based index with no shift: an
existing slot x is updated in place, a missing slot leaves the Panel
unchanged without failing, and an unparsable PCBNumber fails the whole
parse; the concrete repair document with an out-of-range window still
parses successfully while the unparsable one fails. -/
theorem C7_repair_indexing :
    (∀ (p : Panel) (w : Node) (wid pn res : String),
      extractRepairWindow w = (wid, pn, res) → wid ≠ "" → pn ≠ "" → res ≠ "" →
      ((∀ x board, parseUsize pn = some x → p.Boards.get? x = some board →
         repairWindowStep p w
           = .ok { p with Boards := p.Boards.set x (classifyWindow board res (truncWinID wid)) }) ∧
       (∀ x, parseUsize pn = some x → p.Boards.get? x = none →
         repairWindowStep p w = .ok p) ∧
       (parseUsize pn = none →
         repairWindowStep p w = .error ("Could not parse PCBNumber: " ++ pn)))) ∧
    parse_xml c7docOOR "L" = .ok (okPanel (parse_xml c7docOOR "L")) ∧
    (okPanel (parse_xml c7docOOR "L")).Boards.map Board.Pseudo = [["C12"]] ∧
    parse_xml c7docBad "L" = .error "Could not parse PCBNumber: abc" := by
  refine ⟨?_, rfl, rfl, rfl⟩
  intro p w wid pn res hw h1 h2 h3
  refine ⟨?_, ?_, fun hx => repairStep_badparse p w wid pn res hw h1 h2 h3 hx⟩
  · intro x board hx hget
    exact repairStep_hit p w wid pn res x board hw h1 h2 h3 hx hget
  · intro x hx hget
    exact repairStep_miss p w wid pn res x hw h1 h2 h3 hx hget

/-- C7 witness: the step theorem applied to a concrete out-of-range
window over an empty board sequence: the Panel is unchanged. -/
theorem C7_witness :
    repairWindowStep Panel.default (windowRep "C12-1" "5" "Hiba") = .ok Panel.default :=
  ((C7_repair_indexing.1 Panel.default (windowRep "C12-1" "5" "Hiba") "C12-1" "5" "Hiba" rfl
    (by decide) (by decide) (by decide)).2.1) 5 rfl rfl

/-- C8: a WinID is truncated at its last dash before being recorded:
"U5-2" becomes "U5", a dash-free "U5" stays "U5"; in general a dash
followed by a dash-free suffix is stripped and a dash-free WinID is
kept unchanged; the repair document with WinID "C12-1" records "C12". -/
theorem C8_winid_truncation :
    truncWinID "U5-2" = "U5" ∧ truncWinID "U5" = "U5" ∧
    (∀ a b : String, ('-' : Char) ∉ b.data → truncWinID (a ++ "-" ++ b) = a) ∧
    (∀ s : String, ('-' : Char) ∉ s.data → truncWinID s = s) ∧
    (okPanel (parse_xml c7docOOR "L")).Boards.map Board.Pseudo = [["C12"]] :=
  ⟨rfl, rfl, truncWinID_strip, truncWinID_no_dash, rfl⟩

/-- C8 witness: the general truncation facts applied at "U5-2" (as the
split "U5" ++ "-" ++ "2") and at the dash-free "X". -/
theorem C8_witness :
    truncWinID ("U5" ++ "-" ++ "2") = "U5" ∧ truncWinID "X" = "X" :=
  ⟨C8_winid_truncation.2.2.1 "U5" "2" (by decide),
   C8_winid_truncation.2.2.2.1 "X" (by decide)⟩

/-- C9: in every successfully returned Panel, each board's Failed list
and each board's Pseudo list are free of duplicates (the guarded pushes
deduplicate within each list; no deduplication happens across the two
lists). -/
theorem C9_no_duplicates (root : Node) (line : String) (p : Panel)
    (h : parse_xml root line = .ok p) :
    ∀ b ∈ p.Boards, b.Failed.Nodup ∧ b.Pseudo.Nodup :=
  parse_xml_ok_nodup root line p h

/-- C9 witness: feeding "C12-1"/"C12-2" twice into Pseudo and
"U1-1"/"U1-2" twice into Failed of the same board leaves one entry in
each list. -/
theorem C9_witness :
    ((okPanel (parse_xml c9doc "L")).Boards.map Board.Pseudo = [["C12"]] ∧
     (okPanel (parse_xml c9doc "L")).Boards.map Board.Failed = [["U1"]]) ∧
    (∀ b ∈ (okPanel (parse_xml c9doc "L")).Boards, b.Failed.Nodup ∧ b.Pseudo.Nodup) :=
  ⟨⟨rfl, rfl⟩, C9_no_duplicates c9doc "L" (okPanel (parse_xml c9doc "L")) rfl⟩

/-- C10: the enumeration index used to fill board slot i is always
below the pre-sized board count, because the SinglePCB children are a
sublist of the element children that were counted; and in the AOI/AXI
branch the subtraction x - 1 is only reached for x at least 1, because
x = 0 is rejected with a hard error first. -/
theorem C10_safety :
    (∀ (cs : List Node) (pr : Nat × Node),
      pr ∈ (cs.filter (fun c => c.hasTag "SinglePCB")).enum →
      pr.1 < (cs.filter Node.isElement).length) ∧
    (∀ (p : Panel) (w : Node) (wid pn res : String),
      extractAOIWindow w = (wid, pn, res) → wid ≠ "" → pn ≠ "" → res ≠ "" → res ≠ "0" →
      parseUsize pn = some 0 →
      aoiWindowStep p w = .error "BoardNumber is 0. Was excepting 1+") := by
  constructor
  · intro cs pr hpr
    exact lt_of_lt_of_le (fst_lt_of_mem_enum hpr)
      ((List.monotone_filter_right cs
        (fun a ha => hasTag_isElement a "SinglePCB" ha)).length_le)
  · intro p w wid pn res hw h1 h2 h3 h4 hx
    exact aoiStep_zero p w wid pn res hw h1 h2 h3 h4 hx

/-- C10 witness: a two-element PCBInformation with one SinglePCB child,
and the zero board number rejection at a concrete window. -/
theorem C10_witness :
    (0 : Nat) < (([singlePCBN "A" "PASS", Node.elem "Dummy" "" []].filter Node.isElement).length) ∧
    aoiWindowStep Panel.default (windowAOI "U5-2" "0" "3")
      = .error "BoardNumber is 0. Was excepting 1+" :=
  ⟨C10_safety.1 [singlePCBN "A" "PASS", Node.elem "Dummy" "" []] (0, singlePCBN "A" "PASS")
    (List.mem_cons_self _ _),
   C10_safety.2 Panel.default (windowAOI "U5-2" "0" "3") "U5-2" "0" "3" rfl
    (by decide) (by decide) (by decide) (by decide) rfl⟩
